import Mathlib

/-!
# Verification of flask-autoindex (`flaskext/autoindex/__init__.py`)

A shallow embedding of the autoindex module: path resolution and the
`render_autoindex` dispatch are translated from
`src/flaskext/autoindex/__init__.py`; the entry model (`Entry`, `File`,
`Directory`, `explore`, icon resolution) lives in the repository's
`entry.py`, which is not part of the provided sources, so those pieces are
modelled from the specification where noted.
-/

namespace FlaskAutoindex

/-! ## Character and string utilities

Python string operations used by the source (`re.sub`, `os.path.join`,
string comparison) are embedded over `String.data` lists of characters so
that everything reduces in the kernel. -/

/-- Lexicographic order on character lists by code point, the order Python
uses when comparing `str` values. -/
def lexLe : List Char → List Char → Bool
  | [], _ => true
  | _ :: _, [] => false
  | a :: as, b :: bs =>
    if a.toNat < b.toNat then true
    else if b.toNat < a.toNat then false
    else lexLe as bs

/-- `nameLe a b` is Python's `a <= b` on strings. -/
def nameLe (a b : String) : Bool :=
  lexLe a.data b.data

theorem charEq_of_toNat_eq {a b : Char} (h : a.toNat = b.toNat) : a = b := by
  apply Char.ext
  unfold Char.toNat at h
  exact UInt32.toNat.inj h

theorem lexLe_total : ∀ x y : List Char, lexLe x y = true ∨ lexLe y x = true := by
  intro x
  induction x with
  | nil => intro y; left; rfl
  | cons a as ih =>
    intro y
    cases y with
    | nil => right; rfl
    | cons b bs =>
      by_cases hab : a.toNat < b.toNat
      · left; simp [lexLe, hab]
      · by_cases hba : b.toNat < a.toNat
        · right; simp [lexLe, hba]
        · rcases ih bs with h | h
          · left; simp [lexLe, hab, hba, h]
          · right; simp [lexLe, hab, hba, h]

theorem lexLe_trans :
    ∀ x y z : List Char, lexLe x y = true → lexLe y z = true → lexLe x z = true := by
  intro x
  induction x with
  | nil => intro y z _ _; rfl
  | cons a as ih =>
    intro y z hxy hyz
    cases y with
    | nil => simp [lexLe] at hxy
    | cons b bs =>
      cases z with
      | nil => simp [lexLe] at hyz
      | cons c cs =>
        simp only [lexLe] at hxy hyz ⊢
        by_cases hab : a.toNat < b.toNat
        · by_cases hbc : b.toNat < c.toNat
          · simp [show a.toNat < c.toNat by omega]
          · by_cases hcb : c.toNat < b.toNat
            · simp [hbc, hcb] at hyz
            · simp [show a.toNat < c.toNat by omega]
        · by_cases hba : b.toNat < a.toNat
          · simp [hab, hba] at hxy
          · have hEq : a.toNat = b.toNat := by omega
            by_cases hbc : b.toNat < c.toNat
            · simp [show a.toNat < c.toNat by omega]
            · by_cases hcb : c.toNat < b.toNat
              · simp [hbc, hcb] at hyz
              · simp [hab, hba] at hxy
                simp [hbc, hcb] at hyz
                simp [show ¬ a.toNat < c.toNat by omega,
                      show ¬ c.toNat < a.toNat by omega]
                exact ih bs cs hxy hyz

theorem lexLe_antisymm :
    ∀ x y : List Char, lexLe x y = true → lexLe y x = true → x = y := by
  intro x
  induction x with
  | nil =>
    intro y _ hyx
    cases y with
    | nil => rfl
    | cons b bs => simp [lexLe] at hyx
  | cons a as ih =>
    intro y hxy hyx
    cases y with
    | nil => simp [lexLe] at hxy
    | cons b bs =>
      simp only [lexLe] at hxy hyx
      by_cases hab : a.toNat < b.toNat
      · simp [show ¬ b.toNat < a.toNat by omega, hab] at hyx
      · by_cases hba : b.toNat < a.toNat
        · simp [hab, hba] at hxy
        · simp [hab, hba] at hxy
          simp [show ¬ b.toNat < a.toNat by omega, show ¬ a.toNat < b.toNat by omega] at hyx
          have : a = b := charEq_of_toNat_eq (by omega)
          rw [this, ih bs hxy hyx]

/-! ## A generic insertion sort over a boolean comparator

Models Python's `sorted` (as used by `Directory.explore`): a stable
comparison sort parameterized by a total preorder given as a `Bool`-valued
comparator. -/

def insertLe {α : Type} (le : α → α → Bool) (a : α) : List α → List α
  | [] => [a]
  | b :: l => if le a b then a :: b :: l else b :: insertLe le a l

def isortB {α : Type} (le : α → α → Bool) : List α → List α
  | [] => []
  | a :: l => insertLe le a (isortB le l)

theorem perm_insertLe {α : Type} (le : α → α → Bool) (a : α) :
    ∀ l : List α, (insertLe le a l).Perm (a :: l) := by
  intro l
  induction l with
  | nil => exact List.Perm.refl _
  | cons b t ih =>
    by_cases h : le a b
    · simp [insertLe, h]
    · simp only [insertLe, h, if_neg]
      exact (List.Perm.cons b ih).trans (List.Perm.swap a b t)

theorem perm_isortB {α : Type} (le : α → α → Bool) :
    ∀ l : List α, (isortB le l).Perm l := by
  intro l
  induction l with
  | nil => exact List.Perm.refl _
  | cons a t ih =>
    exact (perm_insertLe le a _).trans (List.Perm.cons a ih)

theorem pairwise_insertLe {α : Type} (le : α → α → Bool)
    (htot : ∀ a b, le a b = true ∨ le b a = true)
    (htrans : ∀ a b c, le a b = true → le b c = true → le a c = true)
    (a : α) :
    ∀ l : List α, List.Pairwise (fun x y => le x y = true) l →
      List.Pairwise (fun x y => le x y = true) (insertLe le a l) := by
  intro l
  induction l with
  | nil => intro _; simp [insertLe]
  | cons b t ih =>
    intro hp
    rcases List.pairwise_cons.mp hp with ⟨hb, ht⟩
    by_cases h : le a b
    · simp only [insertLe, h, if_pos]
      refine List.pairwise_cons.mpr ⟨?_, hp⟩
      intro x hx
      rcases List.mem_cons.mp hx with rfl | hx
      · exact h
      · exact htrans a b x h (hb x hx)
    · simp only [insertLe, h, if_neg]
      refine List.pairwise_cons.mpr ⟨?_, ih ht⟩
      intro x hx
      have hperm := perm_insertLe le a t
      rcases List.mem_cons.mp ((hperm.mem_iff).mp hx) with rfl | hx
      · rcases htot x b with h1 | h1
        · exact absurd h1 h
        · exact h1
      · exact hb x hx

theorem pairwise_isortB {α : Type} (le : α → α → Bool)
    (htot : ∀ a b, le a b = true ∨ le b a = true)
    (htrans : ∀ a b c, le a b = true → le b c = true → le a c = true) :
    ∀ l : List α, List.Pairwise (fun x y => le x y = true) (isortB le l) := by
  intro l
  induction l with
  | nil => simp [isortB]
  | cons a t ih => exact pairwise_insertLe le htot htrans a _ ih

/-- Two sorted permutations of each other agree when the sort keys are
pairwise distinct, even though the comparator compares keys rather than
entire values. -/
theorem sorted_perm_nodupKeys_eq {α β : Type} (key : α → β) (le : β → β → Bool)
    (hanti : ∀ x y, le x y = true → le y x = true → x = y) :
    ∀ l₁ l₂ : List α, l₁.Perm l₂ →
      List.Pairwise (fun a b => le (key a) (key b) = true) l₁ →
      List.Pairwise (fun a b => le (key a) (key b) = true) l₂ →
      (l₁.map key).Nodup → l₁ = l₂ := by
  intro l₁
  induction l₁ with
  | nil =>
    intro l₂ hperm _ _ _
    exact (List.Perm.eq_nil hperm.symm).symm
  | cons a t₁ ih =>
    intro l₂ hperm hs₁ hs₂ hnd
    cases l₂ with
    | nil => exact absurd (List.Perm.eq_nil hperm) (by simp)
    | cons b t₂ =>
      rcases List.pairwise_cons.mp hs₁ with ⟨ha, ht₁⟩
      rcases List.pairwise_cons.mp hs₂ with ⟨hb, ht₂⟩
      have hnd' : key a ∉ t₁.map key ∧ (t₁.map key).Nodup := by
        rw [List.map_cons] at hnd
        exact List.nodup_cons.mp hnd
      have hab : a = b := by
        have hbmem : b ∈ a :: t₁ := hperm.symm.subset (by simp)
        rcases List.mem_cons.mp hbmem with rfl | hbt
        · rfl
        · have hamem : a ∈ b :: t₂ := hperm.subset (by simp)
          rcases List.mem_cons.mp hamem with rfl | hat
          · rfl
          · have h1 : le (key a) (key b) = true := ha b hbt
            have h2 : le (key b) (key a) = true := hb a hat
            have hkey : key a = key b := hanti _ _ h1 h2
            exact absurd (hkey ▸ List.mem_map_of_mem key hbt) hnd'.1
      subst hab
      have ht : t₁ = t₂ := ih t₂ (hperm.cons_inv) ht₁ ht₂ hnd'.2
      rw [ht]

/-! ## Entry model

Modelled from the spec: `entry.py` (the Entry/File/Directory classes) is
not among the provided sources. An entry is one filesystem object with a
name, a variant discriminant (file vs directory) and the numeric metadata
the sort keys use. -/

structure Ent where
  name : String
  isdir : Bool
  size : Nat
  modified : Nat
deriving DecidableEq

/-- The dynamic variant of an entry (the class used by `cls=` rules). -/
inductive EntClass where
  | file
  | directory
deriving DecidableEq

def entClass (e : Ent) : EntClass :=
  if e.isdir then EntClass.directory else EntClass.file

def extSplitLast : List Char → List Char → List Char
  | [], acc => acc.reverse
  | c :: rest, acc =>
    if c = '.' then extSplitLast rest []
    else extSplitLast rest (c :: acc)

/-- Modelled from the spec: the extension of a file name, the text after
the last dot (the whole name when it has no dot, matching a
`split(".")[-1]`-style lookup). -/
def extOf (s : String) : String :=
  String.mk (extSplitLast s.data [])

/-- Modelled from the spec: the mimetype guessed from a file name by its
extension (a representative fragment of the platform table). -/
def guessMime (name : String) : String :=
  if extOf name = "txt" then "text/plain"
  else if extOf name = "html" then "text/html"
  else if extOf name = "png" then "image/png"
  else if extOf name = "jpg" then "image/jpeg"
  else if extOf name = "js" then "application/javascript"
  else "application/octet-stream"

def splitSlash : List Char → List Char → List (List Char)
  | [], acc => [acc.reverse]
  | c :: rest, acc =>
    if c = '/' then acc.reverse :: splitSlash rest []
    else splitSlash rest (c :: acc)

/-- Modelled from the spec: a mimetype glob pattern match supporting the
`type/*` wildcard in the subtype position. -/
def mimeGlobMatch (pat mime : String) : Bool :=
  match splitSlash pat.data [], splitSlash mime.data [] with
  | [pt, ps], [mt, ms] => pt == mt && (ps == ['*'] || ps == ms)
  | _, _ => pat == mime

/-! ## Icon rules -/

/-- The `icon` argument of `add_icon_rule`: a static icon reference, or a
callable returning a dynamic icon reference (`none` models the falsy
"no match" return). -/
inductive IconArg where
  | static (url : String)
  | dynamic (f : Ent → Option String)

def IconArg.isCallable : IconArg → Bool
  | IconArg.static _ => false
  | IconArg.dynamic _ => true

/-- The `rule` argument of `add_icon_rule`: absent (`None`), a callable
predicate, or a supplied value that is not callable. -/
inductive RuleArg where
  | absent
  | fn (p : Ent → Bool)
  | notCallable

def RuleArg.isCallable : RuleArg → Bool
  | RuleArg.fn _ => true
  | _ => false

/-- The matcher shapes that one `add_icon_rule` call can register. -/
inductive Matcher where
  | byExt (exts : List String)
  | byMime (pats : List String)
  | byFileName (names : List String)
  | byDirName (names : List String)
  | byClass (classes : List EntClass)
  | custom (rule : RuleArg)

structure IconRule where
  icon : IconArg
  matcher : Matcher

/-- Modelled from the spec: whether a matcher accepts an entry. Extension
and mimetype rules apply to files only; filename/dirname rules to the
respective variant; a custom rule with a callable predicate asks it, and a
custom rule registered only because the icon is callable matches every
entry (the callable icon then decides by its return value). -/
def Matcher.accepts : Matcher → Ent → Bool
  | Matcher.byExt exts, e => !e.isdir && exts.contains (extOf e.name)
  | Matcher.byMime pats, e =>
      !e.isdir && pats.any (fun p => mimeGlobMatch p (guessMime e.name))
  | Matcher.byFileName ns, e => !e.isdir && ns.contains e.name
  | Matcher.byDirName ns, e => e.isdir && ns.contains e.name
  | Matcher.byClass cs, e => cs.contains (entClass e)
  | Matcher.custom r, e =>
      match r with
      | RuleArg.fn p => p e
      | _ => true

/-- Modelled from the spec: the default icon reference used when no rule
matches. -/
def defaultIcon : String := "default.png"

/-- Modelled from the spec (§4.2): first matching rule wins; a callable
icon may decline by returning a falsy value, causing fallthrough; the
default icon is used when the list is exhausted. -/
def resolve : List IconRule → Ent → String
  | [], _ => defaultIcon
  | r :: rs, e =>
    if r.matcher.accepts e then
      match r.icon with
      | IconArg.static u => u
      | IconArg.dynamic f =>
        match f e with
        | some u => u
        | none => resolve rs e
    else resolve rs e

/-- `AutoIndex.add_icon_rule` (source lines 165-179). Python truthiness of
the optional list arguments is modelled by non-emptiness (`[]` is the
absent/falsy value). Line 166 overwrites `filename` with `name`; line 167
assigns `name` to the local `directoryname`, which is never read again, so
`dirname` is left as passed. The `File./Directory./Entry.add_icon_rule*`
helpers live in the absent `entry.py` and are modelled from the spec as
appending one rule entry each. -/
def add_icon_rule (icon_map : List IconRule) (icon : IconArg) (rule : RuleArg)
    (ext mimetype name filename dirname : List String) (cls : List EntClass) :
    List IconRule :=
  let filename := if name ≠ [] then name else filename
  let m1 := if ext ≠ [] then icon_map ++ [⟨icon, Matcher.byExt ext⟩] else icon_map
  let m2 := if mimetype ≠ [] then m1 ++ [⟨icon, Matcher.byMime mimetype⟩] else m1
  let m3 := if filename ≠ [] then m2 ++ [⟨icon, Matcher.byFileName filename⟩] else m2
  let m4 := if dirname ≠ [] then m3 ++ [⟨icon, Matcher.byDirName dirname⟩] else m3
  let m5 := if cls ≠ [] then m4 ++ [⟨icon, Matcher.byClass cls⟩] else m4
  if rule.isCallable = true ∨ icon.isCallable = true then
    m5 ++ [⟨icon, Matcher.custom rule⟩]
  else m5

/-! ## Path resolution -/

/-- `re.sub("\/*$", "", path)` (source line 87): remove the run of
slashes at the end of the path. -/
def stripSlashes (path : String) : String :=
  String.mk ((path.data.reverse.dropWhile (fun c => c == '/')).reverse)

def strHeadIsSlash (s : String) : Bool :=
  match s.data with
  | [] => false
  | c :: _ => c == '/'

def strLastIsSlash (s : String) : Bool :=
  match s.data.reverse with
  | [] => false
  | c :: _ => c == '/'

/-- `os.path.join(a, b)` on a POSIX host for two components (source
line 88): an absolute `b` replaces `a`; otherwise they are concatenated
with a separator unless `a` is empty or already ends in one. -/
def posixJoin (a b : String) : String :=
  if strHeadIsSlash b then b
  else if a = "" ∨ strLastIsSlash a then a ++ b
  else a ++ "/" ++ b

def normStack : List (List Char) → List (List Char) → List (List Char)
  | acc, [] => acc
  | acc, seg :: rest =>
    if seg = [] ∨ seg = ['.'] then normStack acc rest
    else if seg = ['.', '.'] then normStack acc.tail rest
    else normStack (seg :: acc) rest

/-- Modelled from the spec: normalization of an absolute POSIX path
(collapsing `.`, empty segments and `..`), used to state where a resolved
path actually points. -/
def normalizePosix (p : String) : String :=
  String.mk ('/' :: List.intercalate ['/'] ((normStack [] (splitSlash p.data [])).reverse))

/-- Modelled from the spec: a resolved absolute path escapes the browse
root when its normalized form is neither the root itself nor below it. -/
def escapesRoot (root abspath : String) : Bool :=
  let n := (normalizePosix abspath).data
  !(n == root.data || (root.data ++ ['/']).isPrefixOf n)

/-! ## Directory explorer -/

/-- The filesystem a request sees, keyed by the literal (unnormalized)
path strings the code passes to `os.path`: which paths are directories,
which are files, and the entries a directory listing yields. -/
structure FS where
  isDirAt : String → Bool
  isFileAt : String → Bool
  childrenAt : String → List Ent

/-- Modelled from the spec (§4.1): the comparator for `explore`, ordering
by the chosen key (`name`, `size` or `modified`, defaulting to `name`),
ascending for `order = 1` and descending otherwise. -/
def exploreLe (sort_by : String) (order : Int) (a b : Ent) : Bool :=
  let le : Ent → Ent → Bool := fun x y =>
    if sort_by = "size" then decide (x.size ≤ y.size)
    else if sort_by = "modified" then decide (x.modified ≤ y.modified)
    else nameLe x.name y.name
  if order = 1 then le a b else le b a

/-- Modelled from the spec (§4.1): `Directory.explore(sort_by, order)`
lists the directory once and sorts the child entries by the chosen key,
files and directories interleaved. -/
def explore (fs : FS) (abspath : String) (sort_by : String) (order : Int) :
    List Ent :=
  isortB (exploreLe sort_by order) (fs.childrenAt abspath)

/-! ## Index service -/

/-- The configuration state of one `AutoIndex` instance: the abspath of
the configured root directory (`None` when no `browse_root` was given)
and the icon rule list. -/
structure AutoIndexState where
  rootdir : Option String
  icon_map : List IconRule

/-- Python truthiness of the optional `browse_root` argument. -/
def truthyStr : Option String → Bool
  | some s => s != ""
  | none => false

/-- The `{"asc": 1, "desc": -1}[token]` lookup (source line 91); `none`
models the `KeyError` the subscript raises for any other token. -/
def orderOfToken (tok : String) : Option Int :=
  if tok = "asc" then some 1
  else if tok = "desc" then some (-1) else none

/-- The outcome of `render_autoindex`: a directory-listing rendering
context (the `curdir` entry as its path/root pair, the `path` value, the
explored entries and the sort parameters), a file stream, an HTTP abort,
or an uncaught Python exception (`KeyError` from the order lookup,
`AttributeError` from reading `.abspath` off a `None` rootdir). -/
inductive RenderResult where
  | listing (curdirPath : String) (curdirRoot : String) (pathArg : String)
      (entries : List Ent) (sortBy : String) (order : Int)
  | sendFile (abspath : String)
  | abort (code : Nat)
  | keyError (token : String)
  | attrError
deriving DecidableEq

/-- `AutoIndex.render_autoindex` (source lines 75-107). The state is
threaded explicitly; no statement in the body writes to `self`, so every
branch returns the state unchanged. `RootDirectory(browse_root, ...)` is
modelled from the spec as the root whose `abspath` equals the argument
exactly (§3), constructed transiently. Query parameters arrive as
`Option String` (`none` is an absent parameter, line 90/91 defaults
apply). -/
def render_autoindex (fs : FS) (st : AutoIndexState) (path : String)
    (browse_root : Option String) (argSortBy argOrder : Option String) :
    RenderResult × AutoIndexState :=
  let rootdir : Option String :=
    if truthyStr browse_root then browse_root else st.rootdir
  match rootdir with
  | none => (RenderResult.attrError, st)
  | some rootAbs =>
    let path := stripSlashes path
    let abspath := posixJoin rootAbs path
    if fs.isDirAt abspath then
      let sort_by := argSortBy.getD "name"
      let tok := argOrder.getD "asc"
      match orderOfToken tok with
      | none => (RenderResult.keyError tok, st)
      | some order =>
        (RenderResult.listing path rootAbs path
          (explore fs abspath sort_by order) sort_by order, st)
    else if fs.isFileAt abspath then
      (RenderResult.sendFile abspath, st)
    else
      (RenderResult.abort 404, st)

/-! ## Constructor dispatch -/

/-- What `isinstance` sees of the `base` argument of `AutoIndex.__new__`:
whether it is a Flask application and whether it is a Module. -/
structure PyBase where
  isFlask : Bool
  isModule : Bool
deriving DecidableEq

inductive AutoIndexVariant where
  | application
  | moduleVariant
deriving DecidableEq

/-- `AutoIndex.__new__` (source lines 42-48): dispatch on the class of
`base`, raising `TypeError` (the `Except.error` case, no instance made)
for anything else. -/
def autoIndexNew (base : PyBase) : Except String AutoIndexVariant :=
  if base.isFlask then Except.ok AutoIndexVariant.application
  else if base.isModule then Except.ok AutoIndexVariant.moduleVariant
  else Except.error "TypeError: base should be Flask or Module."

/-! ## Helper lemmas -/

/-- The optional rule entry one matcher shape contributes. -/
def optEntry (c : Prop) [inst : Decidable c] (r : IconRule) : List IconRule :=
  if c then [r] else []

/-- The sequence of rule entries one `add_icon_rule` call appends. -/
def ruleSuffix (icon : IconArg) (rule : RuleArg)
    (ext mimetype name filename dirname : List String) (cls : List EntClass) :
    List IconRule :=
  optEntry (ext ≠ []) ⟨icon, Matcher.byExt ext⟩ ++
  optEntry (mimetype ≠ []) ⟨icon, Matcher.byMime mimetype⟩ ++
  optEntry ((if name ≠ [] then name else filename) ≠ [])
    ⟨icon, Matcher.byFileName (if name ≠ [] then name else filename)⟩ ++
  optEntry (dirname ≠ []) ⟨icon, Matcher.byDirName dirname⟩ ++
  optEntry (cls ≠ []) ⟨icon, Matcher.byClass cls⟩ ++
  optEntry (rule.isCallable = true ∨ icon.isCallable = true) ⟨icon, Matcher.custom rule⟩

theorem add_icon_rule_eq (m : List IconRule) (icon : IconArg) (rule : RuleArg)
    (ext mimetype name filename dirname : List String) (cls : List EntClass) :
    add_icon_rule m icon rule ext mimetype name filename dirname cls =
      m ++ ruleSuffix icon rule ext mimetype name filename dirname cls := by
  by_cases h1 : ext = [] <;> by_cases h2 : mimetype = [] <;>
    by_cases hn : name = [] <;> by_cases hf : filename = [] <;>
    by_cases h4 : dirname = [] <;> by_cases h5 : cls = [] <;>
    by_cases h6 : rule.isCallable = true ∨ icon.isCallable = true <;>
    simp [add_icon_rule, ruleSuffix, optEntry, h1, h2, hn, hf, h4, h5, h6]

/-- The position of a matcher shape in the order `add_icon_rule` appends
entries. -/
def shapeRank : Matcher → Nat
  | Matcher.byExt _ => 0
  | Matcher.byMime _ => 1
  | Matcher.byFileName _ => 2
  | Matcher.byDirName _ => 3
  | Matcher.byClass _ => 4
  | Matcher.custom _ => 5

theorem ruleSuffix_pairwise (icon : IconArg) (rule : RuleArg)
    (ext mimetype name filename dirname : List String) (cls : List EntClass) :
    List.Pairwise (fun a b : IconRule => shapeRank a.matcher < shapeRank b.matcher)
      (ruleSuffix icon rule ext mimetype name filename dirname cls) := by
  unfold ruleSuffix optEntry
  repeat' split
  all_goals simp [shapeRank]

theorem ruleSuffix_length (icon : IconArg) (rule : RuleArg)
    (ext mimetype name filename dirname : List String) (cls : List EntClass) :
    (ruleSuffix icon rule ext mimetype name filename dirname cls).length =
      (if ext ≠ [] then 1 else 0) + (if mimetype ≠ [] then 1 else 0) +
      (if name ≠ [] ∨ filename ≠ [] then 1 else 0) + (if dirname ≠ [] then 1 else 0) +
      (if cls ≠ [] then 1 else 0) +
      (if rule.isCallable = true ∨ icon.isCallable = true then 1 else 0) := by
  by_cases h1 : ext = [] <;> by_cases h2 : mimetype = [] <;>
    by_cases hn : name = [] <;> by_cases hf : filename = [] <;>
    by_cases h4 : dirname = [] <;> by_cases h5 : cls = [] <;>
    by_cases h6 : rule.isCallable = true ∨ icon.isCallable = true <;>
    simp [ruleSuffix, optEntry, h1, h2, hn, hf, h4, h5, h6]

theorem exploreLe_name_asc (a b : Ent) :
    exploreLe "name" 1 a b = nameLe a.name b.name := by
  simp [exploreLe]

theorem exploreLe_name_desc (a b : Ent) :
    exploreLe "name" (-1) a b = nameLe b.name a.name := by
  simp [exploreLe]

theorem render_state_unchanged (fs : FS) (st : AutoIndexState) (path : String)
    (br aS aO : Option String) :
    (render_autoindex fs st path br aS aO).2 = st := by
  unfold render_autoindex
  simp only []
  repeat' split
  all_goals rfl

theorem render_ignores_state (fs : FS) (st st2 : AutoIndexState) (path r : String)
    (aS aO : Option String) (hr : r ≠ "") :
    (render_autoindex fs st path (some r) aS aO).1 =
      (render_autoindex fs st2 path (some r) aS aO).1 := by
  have ht : truthyStr (some r) = true := by simp [truthyStr, hr]
  unfold render_autoindex
  simp only [ht, if_true]
  repeat' split
  all_goals rfl

theorem string_data_inj : Function.Injective String.data := by
  intro s t h
  cases s
  cases t
  congr

theorem dropWhile_replicate_slash (n : Nat) (l : List Char) :
    List.dropWhile (fun c => c == '/') (List.replicate n '/' ++ l) =
      List.dropWhile (fun c => c == '/') l := by
  induction n with
  | zero => rfl
  | succ k ih => simp [List.replicate_succ, List.dropWhile_cons, ih]

theorem stripSlashes_append_slashes (p : String) (n : Nat) :
    stripSlashes (p ++ String.mk (List.replicate n '/')) = stripSlashes p := by
  unfold stripSlashes
  rw [String.data_append,
    show (String.mk (List.replicate n '/')).data = List.replicate n '/' from rfl,
    List.reverse_append, List.reverse_replicate, dropWhile_replicate_slash]

/-! ## Concrete filesystems used as witness inputs -/

/-- A sample filesystem rooted at `/data` with one subdirectory holding
three entries, one file and nothing else. -/
def fsDemo : FS :=
  ⟨fun p => p == "/data/docs",
   fun p => p == "/data/photo.png",
   fun p =>
     if p == "/data/docs" then
       [⟨"b.txt", false, 2, 10⟩, ⟨"a.txt", false, 1, 20⟩, ⟨"sub", true, 0, 5⟩]
     else []⟩

/-- A filesystem in which the traversal target
`/srv/www/../etc/passwd` (that is, `/srv/etc/passwd`) exists as a file
outside the browse root `/srv/www`. -/
def fsTraversal : FS :=
  ⟨fun p => p == "/srv/www", fun p => p == "/srv/www/../etc/passwd", fun _ => []⟩

def c3ruleFn : Ent → Bool := fun _ => true

def c4rules : List IconRule :=
  add_icon_rule [] (IconArg.static "error.png") RuleArg.absent [] [] ["error"] [] [] []

/-! ## Claims -/

/-- C1 (code bug): for a traversal request path (`"../etc/passwd"` under
root `/srv/www`), `render_autoindex` has no guard at all — lines 87-107
join the path onto the root and serve whatever the escaped absolute path
names, here streaming the file, although the resolved path escapes the
root (it normalizes to `/srv/etc/passwd`, not under `/srv/www`). No
PathEscapesRoot rejection exists in the code. -/
theorem C1_traversal_served_not_rejected :
    (render_autoindex fsTraversal ⟨some "/srv/www", []⟩ "../etc/passwd"
        none none none).1 =
      RenderResult.sendFile "/srv/www/../etc/passwd" ∧
    escapesRoot "/srv/www" "/srv/www/../etc/passwd" = true :=
  ⟨by decide, by decide⟩

/-- C2 (counterexample): for the order token `"foo"` the request does not
fail with an InvalidOrder client error; the dict subscript on line 91
raises an uncaught `KeyError` (a server error), which is not an abort
with a client error code. -/
theorem C2_invalid_order_counterexample :
    (render_autoindex fsDemo ⟨some "/data", []⟩ "docs" none none (some "foo")).1 =
      RenderResult.keyError "foo" ∧
    RenderResult.keyError "foo" ≠ RenderResult.abort 400 ∧
    RenderResult.keyError "foo" ≠ RenderResult.abort 404 :=
  ⟨by decide, by decide, by decide⟩

/-- C2 (amended): the order query parameter maps exactly `"asc"` to `1`
and `"desc"` to `-1`; every other token makes the lookup on line 91 raise
an uncaught `KeyError` (surfacing as a server error), not an InvalidOrder
client error. -/
theorem C2_order_token_mapping (fs : FS) (st : AutoIndexState)
    (rootAbs path sb tok : String)
    (hroot : st.rootdir = some rootAbs)
    (hdir : fs.isDirAt (posixJoin rootAbs (stripSlashes path)) = true) :
    (tok = "asc" →
      (render_autoindex fs st path none (some sb) (some tok)).1 =
        RenderResult.listing (stripSlashes path) rootAbs (stripSlashes path)
          (explore fs (posixJoin rootAbs (stripSlashes path)) sb 1) sb 1) ∧
    (tok = "desc" →
      (render_autoindex fs st path none (some sb) (some tok)).1 =
        RenderResult.listing (stripSlashes path) rootAbs (stripSlashes path)
          (explore fs (posixJoin rootAbs (stripSlashes path)) sb (-1)) sb (-1)) ∧
    (tok ≠ "asc" → tok ≠ "desc" →
      (render_autoindex fs st path none (some sb) (some tok)).1 =
        RenderResult.keyError tok) := by
  refine ⟨fun h => ?_, fun h => ?_, fun h1 h2 => ?_⟩
  · subst h
    simp [render_autoindex, truthyStr, hroot, hdir, orderOfToken]
  · subst h
    simp [render_autoindex, truthyStr, hroot, hdir, orderOfToken]
  · simp [render_autoindex, truthyStr, hroot, hdir, orderOfToken, h1, h2]

theorem C2_order_token_mapping_witness :
    (render_autoindex fsDemo ⟨some "/data", []⟩ "docs" none (some "name")
        (some "desc")).1 =
      RenderResult.listing "docs" "/data" "docs"
        (explore fsDemo "/data/docs" "name" (-1)) "name" (-1) ∧
    (render_autoindex fsDemo ⟨some "/data", []⟩ "docs" none (some "name")
        (some "zzz")).1 =
      RenderResult.keyError "zzz" :=
  ⟨(C2_order_token_mapping fsDemo ⟨some "/data", []⟩ "/data" "docs" "name" "desc"
      rfl (by decide)).2.1 rfl,
   (C2_order_token_mapping fsDemo ⟨some "/data", []⟩ "/data" "docs" "name" "zzz"
      rfl (by decide)).2.2 (by decide) (by decide)⟩

/-- C3 (counterexample): in one `add_icon_rule` call supplying a callable
rule together with other shapes, the callable custom rule entry is
appended LAST (after the extension and filename entries), not first as
the claim states; also `name` overrides `filename` into a single
file-name entry rather than each producing its own. -/
theorem C3_custom_rule_last_counterexample :
    add_icon_rule [] (IconArg.static "i.png") (RuleArg.fn c3ruleFn)
        ["txt"] [] ["n"] ["f"] [] [] =
      [⟨IconArg.static "i.png", Matcher.byExt ["txt"]⟩,
       ⟨IconArg.static "i.png", Matcher.byFileName ["n"]⟩,
       ⟨IconArg.static "i.png", Matcher.custom (RuleArg.fn c3ruleFn)⟩] ∧
    Matcher.byExt ["txt"] ≠ Matcher.custom (RuleArg.fn c3ruleFn) := by
  constructor
  · rw [add_icon_rule_eq]
    simp [ruleSuffix, optEntry, c3ruleFn, RuleArg.isCallable]
  · exact fun hx => Matcher.noConfusion hx

/-- C3 (amended): a single `add_icon_rule` call appends its new entries at
the end, each supplied shape producing exactly one entry — except that a
supplied `name` overrides `filename` and they collapse into one file-name
entry — in the fixed shape order: extension, mimetype, filename, dirname,
class, and the callable custom rule last. -/
theorem C3_shape_entries_fixed_order (m : List IconRule) (icon : IconArg)
    (rule : RuleArg) (ext mimetype name filename dirname : List String)
    (cls : List EntClass) :
    (add_icon_rule m icon rule ext mimetype name filename dirname cls).take
        m.length = m ∧
    List.Pairwise (fun a b : IconRule => shapeRank a.matcher < shapeRank b.matcher)
      ((add_icon_rule m icon rule ext mimetype name filename dirname cls).drop
        m.length) ∧
    ((add_icon_rule m icon rule ext mimetype name filename dirname cls).drop
        m.length).length =
      (if ext ≠ [] then 1 else 0) + (if mimetype ≠ [] then 1 else 0) +
      (if name ≠ [] ∨ filename ≠ [] then 1 else 0) + (if dirname ≠ [] then 1 else 0) +
      (if cls ≠ [] then 1 else 0) +
      (if rule.isCallable = true ∨ icon.isCallable = true then 1 else 0) := by
  rw [add_icon_rule_eq]
  refine ⟨List.take_left m _, ?_, ?_⟩
  · rw [List.drop_left]
    exact ruleSuffix_pairwise icon rule ext mimetype name filename dirname cls
  · rw [List.drop_left]
    exact ruleSuffix_length icon rule ext mimetype name filename dirname cls

/-- C4 (code bug): after `add_icon_rule(icon, name=["error"])`, a
Directory named `error` resolves to the default icon while a File named
`error` gets the configured icon — line 167 assigns `name` to the dead
local `directoryname` instead of `dirname`, so the directory half of the
documented name shortcut is never registered. -/
theorem C4_name_rule_skips_directories :
    resolve c4rules ⟨"error", true, 0, 0⟩ = defaultIcon ∧
    resolve c4rules ⟨"error", false, 0, 0⟩ = "error.png" ∧
    defaultIcon ≠ "error.png" :=
  ⟨by decide, by decide, by decide⟩

/-- C5: `render_autoindex` resolves the request path against the
configured root and then: a directory target yields the listing context
(current directory entry, explored children, sort parameters), a file
target is streamed, and anything else aborts with 404. -/
theorem C5_render_trichotomy (fs : FS) (m : List IconRule)
    (rootAbs path : String) :
    (fs.isDirAt (posixJoin rootAbs (stripSlashes path)) = true →
      (render_autoindex fs ⟨some rootAbs, m⟩ path none none none).1 =
        RenderResult.listing (stripSlashes path) rootAbs (stripSlashes path)
          (explore fs (posixJoin rootAbs (stripSlashes path)) "name" 1) "name" 1) ∧
    (fs.isDirAt (posixJoin rootAbs (stripSlashes path)) = false →
      fs.isFileAt (posixJoin rootAbs (stripSlashes path)) = true →
      (render_autoindex fs ⟨some rootAbs, m⟩ path none none none).1 =
        RenderResult.sendFile (posixJoin rootAbs (stripSlashes path))) ∧
    (fs.isDirAt (posixJoin rootAbs (stripSlashes path)) = false →
      fs.isFileAt (posixJoin rootAbs (stripSlashes path)) = false →
      (render_autoindex fs ⟨some rootAbs, m⟩ path none none none).1 =
        RenderResult.abort 404) := by
  refine ⟨fun h1 => ?_, fun h1 h2 => ?_, fun h1 h2 => ?_⟩
  · simp [render_autoindex, truthyStr, orderOfToken, h1]
  · simp [render_autoindex, truthyStr, h1, h2]
  · simp [render_autoindex, truthyStr, h1, h2]

theorem C5_render_trichotomy_witness :
    (render_autoindex fsDemo ⟨some "/data", []⟩ "docs" none none none).1 =
      RenderResult.listing "docs" "/data" "docs"
        (explore fsDemo "/data/docs" "name" 1) "name" 1 ∧
    (render_autoindex fsDemo ⟨some "/data", []⟩ "photo.png" none none none).1 =
      RenderResult.sendFile "/data/photo.png" ∧
    (render_autoindex fsDemo ⟨some "/data", []⟩ "nope" none none none).1 =
      RenderResult.abort 404 :=
  ⟨(C5_render_trichotomy fsDemo [] "/data" "docs").1 (by decide),
   (C5_render_trichotomy fsDemo [] "/data" "photo.png").2.1 (by decide) (by decide),
   (C5_render_trichotomy fsDemo [] "/data" "nope").2.2 (by decide) (by decide)⟩

/-- C6: path `"subdir"` under root `/srv/www` resolves to exactly
`/srv/www/subdir`; `"subdir/"` resolves to the same; and in general any
run of trailing slashes is stripped before resolution, so appending
slashes never changes the resolved absolute path. -/
theorem C6_abspath_resolution :
    posixJoin "/srv/www" (stripSlashes "subdir") = "/srv/www/subdir" ∧
    posixJoin "/srv/www" (stripSlashes "subdir/") = "/srv/www/subdir" ∧
    ∀ (root p : String) (n : Nat),
      posixJoin root (stripSlashes (p ++ String.mk (List.replicate n '/'))) =
        posixJoin root (stripSlashes p) :=
  ⟨by decide, by decide, fun root p n => by rw [stripSlashes_append_slashes]⟩

/-- C7: exploring a directory by name ascending yields the children in
non-decreasing name order, and descending order is exactly the reversal
of the ascending result, provided the child names are distinct (as
directory listings are). -/
theorem C7_explore_name_order_reversal (fs : FS) (p : String)
    (h : ((fs.childrenAt p).map Ent.name).Nodup) :
    List.Pairwise (fun a b : Ent => nameLe a.name b.name = true)
      (explore fs p "name" 1) ∧
    explore fs p "name" (-1) = (explore fs p "name" 1).reverse := by
  have htot1 : ∀ a b : Ent,
      exploreLe "name" 1 a b = true ∨ exploreLe "name" 1 b a = true := by
    intro a b
    rw [exploreLe_name_asc, exploreLe_name_asc]
    exact lexLe_total a.name.data b.name.data
  have htrans1 : ∀ a b c : Ent, exploreLe "name" 1 a b = true →
      exploreLe "name" 1 b c = true → exploreLe "name" 1 a c = true := by
    intro a b c hab hbc
    rw [exploreLe_name_asc] at hab hbc ⊢
    exact lexLe_trans _ _ _ hab hbc
  have hsort1 := pairwise_isortB (exploreLe "name" 1) htot1 htrans1 (fs.childrenAt p)
  have hsort1k : List.Pairwise
      (fun a b : Ent => lexLe a.name.data b.name.data = true)
      (isortB (exploreLe "name" 1) (fs.childrenAt p)) :=
    hsort1.imp (fun hx => by rwa [exploreLe_name_asc] at hx)
  constructor
  · exact hsort1k
  · have htot2 : ∀ a b : Ent,
        exploreLe "name" (-1) a b = true ∨ exploreLe "name" (-1) b a = true := by
      intro a b
      rw [exploreLe_name_desc, exploreLe_name_desc]
      exact lexLe_total b.name.data a.name.data
    have htrans2 : ∀ a b c : Ent, exploreLe "name" (-1) a b = true →
        exploreLe "name" (-1) b c = true → exploreLe "name" (-1) a c = true := by
      intro a b c hab hbc
      rw [exploreLe_name_desc] at hab hbc ⊢
      exact lexLe_trans _ _ _ hbc hab
    have hsort2 := pairwise_isortB (exploreLe "name" (-1)) htot2 htrans2
      (fs.childrenAt p)
    have hs_desc : List.Pairwise
        (fun a b : Ent => lexLe b.name.data a.name.data = true)
        (isortB (exploreLe "name" (-1)) (fs.childrenAt p)) :=
      hsort2.imp (fun hx => by rwa [exploreLe_name_desc] at hx)
    have hs_rev : List.Pairwise
        (fun a b : Ent => lexLe b.name.data a.name.data = true)
        (isortB (exploreLe "name" 1) (fs.childrenAt p)).reverse := by
      rw [List.pairwise_reverse]
      exact hsort1k
    have hperm : (isortB (exploreLe "name" (-1)) (fs.childrenAt p)).Perm
        (isortB (exploreLe "name" 1) (fs.childrenAt p)).reverse :=
      (perm_isortB _ _).trans ((perm_isortB (exploreLe "name" 1) _).symm.trans
        (List.reverse_perm _).symm)
    have hmapkey : (fs.childrenAt p).map (fun e : Ent => e.name.data) =
        ((fs.childrenAt p).map Ent.name).map String.data := by
      rw [List.map_map]
      rfl
    have hnodupl : ((fs.childrenAt p).map (fun e : Ent => e.name.data)).Nodup := by
      rw [hmapkey]
      exact List.Nodup.map string_data_inj h
    have hnd : ((isortB (exploreLe "name" (-1)) (fs.childrenAt p)).map
        (fun e : Ent => e.name.data)).Nodup :=
      List.Nodup.perm hnodupl
        ((perm_isortB (exploreLe "name" (-1)) (fs.childrenAt p)).map
          (fun e : Ent => e.name.data)).symm
    exact sorted_perm_nodupKeys_eq (fun e : Ent => e.name.data)
      (fun x y => lexLe y x)
      (fun x y hxy hyx => lexLe_antisymm x y
        (show lexLe x y = true from hyx) (show lexLe y x = true from hxy))
      _ _ hperm hs_desc hs_rev hnd

theorem C7_explore_name_order_reversal_witness :
    List.Pairwise (fun a b : Ent => nameLe a.name b.name = true)
      (explore fsDemo "/data/docs" "name" 1) ∧
    explore fsDemo "/data/docs" "name" (-1) =
      (explore fsDemo "/data/docs" "name" 1).reverse :=
  C7_explore_name_order_reversal fsDemo "/data/docs" (by decide)

/-- C8: calling `render_autoindex` with an explicit `browse_root` uses a
transient root for that call only: the instance state (configured rootdir
and icon rule list) is returned unchanged, and the response does not
depend on the stored state at all. -/
theorem C8_render_frame (fs : FS) (st st2 : AutoIndexState) (path r : String)
    (aS aO : Option String) (hr : r ≠ "") :
    (render_autoindex fs st path (some r) aS aO).2 = st ∧
    (render_autoindex fs st path (some r) aS aO).1 =
      (render_autoindex fs st2 path (some r) aS aO).1 :=
  ⟨render_state_unchanged fs st path (some r) aS aO,
   render_ignores_state fs st st2 path r aS aO hr⟩

theorem C8_render_frame_witness :
    (render_autoindex fsDemo ⟨some "/other", []⟩ "docs" (some "/data")
        none none).2 = (⟨some "/other", []⟩ : AutoIndexState) ∧
    (render_autoindex fsDemo ⟨some "/other", []⟩ "docs" (some "/data")
        none none).1 =
      (render_autoindex fsDemo ⟨none, []⟩ "docs" (some "/data") none none).1 :=
  C8_render_frame fsDemo ⟨some "/other", []⟩ ⟨none, []⟩ "docs" "/data"
    none none (by decide)

/-- C9: constructing `AutoIndex` dispatches on the base: a Flask
application yields `AutoIndexApplication`, a Module yields
`AutoIndexModule`, and any other base raises `TypeError` with no instance
created. -/
theorem C9_constructor_dispatch (b : PyBase) :
    (b.isFlask = true → autoIndexNew b = Except.ok AutoIndexVariant.application) ∧
    (b.isFlask = false → b.isModule = true →
      autoIndexNew b = Except.ok AutoIndexVariant.moduleVariant) ∧
    (b.isFlask = false → b.isModule = false →
      autoIndexNew b = Except.error "TypeError: base should be Flask or Module.") := by
  refine ⟨fun h1 => ?_, fun h1 h2 => ?_, fun h1 h2 => ?_⟩
  · simp [autoIndexNew, h1]
  · simp [autoIndexNew, h1, h2]
  · simp [autoIndexNew, h1, h2]

theorem C9_constructor_dispatch_witness :
    autoIndexNew ⟨true, false⟩ = Except.ok AutoIndexVariant.application ∧
    autoIndexNew ⟨false, true⟩ = Except.ok AutoIndexVariant.moduleVariant ∧
    autoIndexNew ⟨false, false⟩ =
      Except.error "TypeError: base should be Flask or Module." :=
  ⟨(C9_constructor_dispatch ⟨true, false⟩).1 rfl,
   (C9_constructor_dispatch ⟨false, true⟩).2.1 rfl rfl,
   (C9_constructor_dispatch ⟨false, false⟩).2.2 rfl rfl⟩

/-- C10: `add_icon_rule` with a non-callable icon, a rule argument that is
absent or not callable, and none of the shortcut shapes supplied, appends
nothing: the rule list is returned unchanged. -/
theorem C10_add_icon_rule_noop (m : List IconRule) (icon : IconArg)
    (rule : RuleArg) (hi : icon.isCallable = false)
    (hr : rule.isCallable = false) :
    add_icon_rule m icon rule [] [] [] [] [] [] = m := by
  simp [add_icon_rule, hi, hr]

theorem C10_add_icon_rule_noop_witness :
    add_icon_rule [] (IconArg.static "x.png") RuleArg.notCallable
      [] [] [] [] [] [] = [] :=
  C10_add_icon_rule_noop [] (IconArg.static "x.png") RuleArg.notCallable rfl rfl

end FlaskAutoindex
